import Mathlib

/-!
Verification model of the sandboxed file-access-and-editing subsystem of
filesystem-daemon (Go sources: service/filesystem_types.go and
service/filesystem_editor.go).

File contents and line contents are modelled as lists of characters
(Go strings/byte slices restricted to valid UTF-8); paths are Lean strings.
Go maps are modelled as association lists with unique-key insert semantics.
The OS clock is passed explicitly as an integer number of seconds, and the
random handle/lock-id generators are modelled by passing the freshly drawn
identifier as an argument.
-/

deriving instance DecidableEq for Except

namespace FsDaemon

/-! ## Generic string-map helpers, mirroring Go map semantics -/

/-- Lookup in an association list, mirroring a Go map read m[k]. -/
def mapLookup {α : Type} : List (String × α) → String → Option α
  | [], _ => none
  | (k', v) :: rest, k => if k' = k then some v else mapLookup rest k

/-- Remove every entry with key k, mirroring Go delete(m, k) on a
unique-key map. -/
def mapErase {α : Type} : List (String × α) → String → List (String × α)
  | [], _ => []
  | (k', v) :: rest, k =>
    if k' = k then mapErase rest k else (k', v) :: mapErase rest k

/-- Store v under k, mirroring the Go map write m[k] = v (replacing any
existing entry for k). -/
def mapInsert {α : Type} (m : List (String × α)) (k : String) (v : α) :
    List (String × α) :=
  (k, v) :: mapErase m k

/-- Update the entry at key k in place, mirroring mutation through a Go
map-stored pointer. -/
def mapAdjust {α : Type} : List (String × α) → String → (α → α) → List (String × α)
  | [], _, _ => []
  | (k', v) :: rest, k, f =>
    if k' = k then (k', f v) :: mapAdjust rest k f
    else (k', v) :: mapAdjust rest k f

theorem mapLookup_mapErase_self {α : Type} (m : List (String × α)) (k : String) :
    mapLookup (mapErase m k) k = none := by
  induction m with
  | nil => rfl
  | cons e rest ih =>
    obtain ⟨k', v⟩ := e
    by_cases h : k' = k <;> simp [mapErase, mapLookup, h, ih]

theorem mapLookup_mapErase_ne {α : Type} (m : List (String × α)) (k q : String)
    (h : q ≠ k) : mapLookup (mapErase m k) q = mapLookup m q := by
  induction m with
  | nil => rfl
  | cons e rest ih =>
    obtain ⟨k', v⟩ := e
    by_cases hk : k' = k
    · subst hk
      simp [mapErase, mapLookup, Ne.symm h, ih]
    · by_cases hq : k' = q <;> simp [mapErase, mapLookup, hk, hq, h, ih]

theorem mapLookup_mapInsert {α : Type} (m : List (String × α)) (k q : String)
    (v : α) :
    mapLookup (mapInsert m k v) q = if k = q then some v else mapLookup m q := by
  by_cases h : k = q
  · subst h; simp [mapInsert, mapLookup]
  · simp [mapInsert, mapLookup, h, mapLookup_mapErase_ne m k q (Ne.symm h)]

/-! ## Character-list helpers (Go strings package) -/

/-- Split a character list on a separator character; mirrors
strings.Split(s, sep) for a one-character separator (always returns at
least one piece; splitting the empty string yields one empty piece). -/
def splitOnChar (sep : Char) : List Char → List (List Char)
  | [] => [[]]
  | c :: rest =>
    if c = sep then [] :: splitOnChar sep rest
    else
      match splitOnChar sep rest with
      | [] => [[c]]
      | h :: t => (c :: h) :: t

/-- Join pieces with a separator character; mirrors
strings.Join(pieces, sep). -/
def joinWithChar (sep : Char) : List (List Char) → List Char
  | [] => []
  | [piece] => piece
  | piece :: rest => piece ++ sep :: joinWithChar sep rest

theorem splitOnChar_ne_nil (sep : Char) (l : List Char) :
    splitOnChar sep l ≠ [] := by
  cases l with
  | nil => simp [splitOnChar]
  | cons c rest =>
    by_cases h : c = sep
    · simp [splitOnChar, h]
    · simp only [splitOnChar, h, if_false]
      cases hr : splitOnChar sep rest <;> simp

/-- Splitting on a separator and joining back is the identity, so a
split-edit-join round trip with no edits preserves the content. -/
theorem joinWithChar_splitOnChar (sep : Char) (l : List Char) :
    joinWithChar sep (splitOnChar sep l) = l := by
  induction l with
  | nil => rfl
  | cons c rest ih =>
    by_cases h : c = sep
    · simp only [splitOnChar, if_pos h]
      cases hr : splitOnChar sep rest with
      | nil => exact absurd hr (splitOnChar_ne_nil sep rest)
      | cons p t =>
        rw [hr] at ih
        simp [joinWithChar, ih, h]
    · simp only [splitOnChar, h, if_false]
      cases hr : splitOnChar sep rest with
      | nil => exact absurd hr (splitOnChar_ne_nil sep rest)
      | cons p t =>
        rw [hr] at ih
        cases t with
        | nil => simp_all [joinWithChar]
        | cons q t2 => simp_all [joinWithChar]

/-- UTF-8 byte length of a character list; mirrors Go len(string). -/
def charsUtf8Size (l : List Char) : Nat :=
  l.foldl (fun n c => n + c.utf8Size) 0

/-- strings.HasPrefix(s, pre). -/
def strStartsWith (s pre : String) : Bool :=
  pre.data.isPrefixOf s.data

/-! ## Path model (path/filepath on Unix)

filepath.Join(base, p) = Clean(base + "/" + p) for a non-empty base.  We
model Clean for rooted (absolute) paths: split on the separator, drop
empty and dot segments, let a dot-dot segment pop the previous segment
(or vanish at the root), and re-render. -/

/-- The lexical segment processing performed by filepath.Clean on a rooted
path: acc holds already-accepted segments in reverse order. -/
def cleanSegs : List (List Char) → List (List Char) → List (List Char)
  | acc, [] => acc.reverse
  | acc, s :: rest =>
    if s = [] ∨ s = ['.'] then cleanSegs acc rest
    else if s = ['.', '.'] then cleanSegs (acc.drop 1) rest
    else cleanSegs (s :: acc) rest

/-- Render cleaned segments back into a rooted path string. -/
def renderRooted (segs : List (List Char)) : List Char :=
  match segs with
  | [] => ['/']
  | _ => segs.foldl (fun acc s => acc ++ '/' :: s) []

/-- filepath.Join(base, p) for an absolute base directory (the daemon is
constructed with an absolute BaseDir); filepath.FromSlash is the identity
on Linux. -/
def joinPath (base p : String) : String :=
  String.mk (renderRooted (cleanSegs [] (splitOnChar '/' (base.data ++ '/' :: p.data))))

/-- filepath.Dir for an already-cleaned rooted path: everything but the
last segment. -/
def dirPath (p : String) : String :=
  String.mk (renderRooted ((cleanSegs [] (splitOnChar '/' p.data)).dropLast))

/-- Result of filepath.EvalSymlinks as observed by validatePath: the
resolved canonical path, a does-not-exist error (os.IsNotExist), or any
other error. A concrete function String to EvalResult describes one state
of the OS filesystem tree. -/
inductive EvalResult : Type
  | ok (real : String)
  | notExist
  | otherErr
deriving DecidableEq, Repr

/-- gRPC status codes produced by the subsystem. -/
inductive GrpcCode : Type
  | permissionDenied
  | invalidArgument
deriving DecidableEq, Repr

/-- validatePath from service/filesystem_types.go: join the raw path with
BaseDir, canonicalize via EvalSymlinks (falling back to the parent
directory when the joined path does not exist), and require the canonical
result to have BaseDir as a string prefix. Returns the joined
(non-canonicalized) path on success. -/
def validatePath (baseDir : String) (fsEval : String → EvalResult)
    (path : String) : Except GrpcCode String :=
  let fullPath := joinPath baseDir path
  match fsEval fullPath with
  | .ok realPath =>
    if strStartsWith realPath baseDir then .ok fullPath
    else .error .permissionDenied
  | .notExist =>
    match fsEval (dirPath fullPath) with
    | .ok realParentPath =>
      if strStartsWith realParentPath baseDir then .ok fullPath
      else .error .permissionDenied
    | _ => .error .invalidArgument
  | .otherErr => .error .invalidArgument

/-- The canonical path that validatePath actually subjects to the prefix
check: the resolved full path when it exists, otherwise the resolved
parent directory. -/
def checkedCanonical (fsEval : String → EvalResult) (fullPath : String) :
    Option String :=
  match fsEval fullPath with
  | .ok realPath => some realPath
  | .notExist =>
    match fsEval (dirPath fullPath) with
    | .ok realParentPath => some realParentPath
    | _ => none
  | .otherErr => none

/-- A path is inside the authorized root directory when it equals the root
or is a descendant of it (component-wise). -/
def insideRoot (root p : String) : Bool :=
  p = root || strStartsWith p (root ++ "/")

/-! ## Editor data model (service/filesystem_editor.go)

Time is an integer count of seconds (time.Now / time.After / time.Before
become integer comparisons); handle and lock-id generation is random in
the source and is modelled by passing the freshly drawn identifier as an
argument. -/

/-- proto FileOpenMode as used by the service switch. -/
inductive FileOpenMode : Type
  | READ_ONLY
  | WRITE_ONLY
  | READ_WRITE
deriving DecidableEq, Repr

/-- proto LockType as used by the service. -/
inductive LockType : Type
  | SHARED
  | EXCLUSIVE
deriving DecidableEq, Repr

/-- proto LineOperation as used by the UpdateFileLines switch. -/
inductive LineOperation : Type
  | REPLACE
  | INSERT_BEFORE
  | INSERT_AFTER
  | DELETE
deriving DecidableEq, Repr

/-- FileSession record (the OS file descriptor and CreatedAt/BackupPath
fields carry no observable behavior in the modelled operations and are
omitted). -/
structure FileSession : Type where
  handle : String
  path : String
  mode : FileOpenMode
  lockID : String
  lastAccess : Int
  hasChanges : Bool
deriving DecidableEq, Repr

/-- FileLock record. The Owner field is always the empty string in the
source and is omitted. -/
structure FileLock : Type where
  lockID : String
  path : String
  type : LockType
  expiresAt : Int
deriving DecidableEq, Repr

/-- FileEditor: the global session and lock tables. -/
structure FileEditor : Type where
  sessions : List (String × FileSession)
  locks : List (String × FileLock)
deriving DecidableEq, Repr

/-- The modelled on-disk state: file path to file content. -/
abbrev Fs : Type := List (String × List Char)

/-- proto OperationResponse (the fields the editor sets). -/
structure OperationResponse : Type where
  success : Bool
  error : String := ""
  message : String := ""
deriving DecidableEq, Repr

/-- proto LockFileResponse (the fields the editor sets). -/
structure LockFileResponse : Type where
  success : Bool
  error : String := ""
  lockId : String := ""
  expiresAt : Int := 0
deriving DecidableEq, Repr

/-- cleanupExpiredLocks: delete every lock whose ExpiresAt has passed
(now.After(lock.ExpiresAt)). -/
def cleanupExpiredLocks (now : Int) (locks : List (String × FileLock)) :
    List (String × FileLock) :=
  locks.filter (fun e => !(decide (now > e.2.expiresAt)))

/-- LockFile: validate the path, sweep expired locks, fail when an
unexpired lock conflicts (requested Exclusive, or existing Exclusive),
otherwise store a fresh lock expiring at now + timeout (default 300
seconds when TimeoutSeconds is zero). freshLockID stands for the random
generateLockID draw. -/
def LockFile (baseDir : String) (fsEval : String → EvalResult) (now : Int)
    (freshLockID : String) (st : FileEditor) (path : String)
    (lockType : LockType) (timeoutSeconds : Int) :
    Except GrpcCode LockFileResponse × FileEditor :=
  match validatePath baseDir fsEval path with
  | .error e => (.error e, st)
  | .ok validPath =>
    let locks1 := cleanupExpiredLocks now st.locks
    let store : List (String × FileLock) →
        Except GrpcCode LockFileResponse × FileEditor := fun locks2 =>
      let timeout : Int := if timeoutSeconds = 0 then 300 else timeoutSeconds
      let lock : FileLock :=
        { lockID := freshLockID, path := validPath, type := lockType
          expiresAt := now + timeout }
      (.ok { success := true, lockId := freshLockID, expiresAt := now + timeout },
       { st with locks := mapInsert locks2 validPath lock })
    match mapLookup locks1 validPath with
    | some existingLock =>
      if now < existingLock.expiresAt then
        if lockType = .EXCLUSIVE ∨ existingLock.type = .EXCLUSIVE then
          (.ok { success := false, error := "File is already locked" },
           { st with locks := locks1 })
        else
          store locks1
      else
        store (mapErase locks1 validPath)
    | none => store locks1

/-- UnlockFile: validate the path, fail when no lock is stored for it or
when the stored lock id differs, otherwise remove the entry. -/
def UnlockFile (baseDir : String) (fsEval : String → EvalResult)
    (st : FileEditor) (path lockId : String) :
    Except GrpcCode OperationResponse × FileEditor :=
  match validatePath baseDir fsEval path with
  | .error e => (.error e, st)
  | .ok validPath =>
    match mapLookup st.locks validPath with
    | none =>
      (.ok { success := false, error := "No lock found for this file" }, st)
    | some lock =>
      if lock.lockID ≠ lockId then
        (.ok { success := false, error := "Invalid lock ID" }, st)
      else
        (.ok { success := true, message := "File unlocked successfully" },
         { st with locks := mapErase st.locks validPath })

/-- CloseFile: look up the session, close the descriptor (modelled as
always succeeding), delegate to UnlockFile when the session stored a lock
id (ignoring its result), and remove the session record. -/
def CloseFile (baseDir : String) (fsEval : String → EvalResult)
    (st : FileEditor) (fileHandle : String) (saveChanges : Bool) :
    Except GrpcCode OperationResponse × FileEditor :=
  match mapLookup st.sessions fileHandle with
  | none =>
    (.ok { success := false, error := "Invalid file handle" }, st)
  | some session =>
    let st1 :=
      if session.lockID ≠ "" then
        (UnlockFile baseDir fsEval st session.path session.lockID).2
      else st
    let message :=
      if session.hasChanges && saveChanges then
        "File closed and changes saved successfully"
      else "File closed successfully"
    (.ok { success := true, message := message },
     { st1 with sessions := mapErase st1.sessions fileHandle })

/-! ## Whole-file and line-level content operations

Error messages built in the source with fmt.Sprintf around an OS error
are modelled by their static prefix. Contents are character lists, so the
utf8.Valid check always reports utf-8 in the model. -/

/-- proto FileContentResponse (the fields the editor sets). -/
structure FileContentResponse : Type where
  success : Bool
  error : String := ""
  content : List Char := []
  encoding : String := ""
  lineCount : Int := 0
  size : Int := 0
deriving DecidableEq, Repr

/-- ReadFileContent: validate, read the whole file, report line count
(newline count plus one, zero for empty content) and byte size. -/
def ReadFileContent (baseDir : String) (fsEval : String → EvalResult)
    (fs : Fs) (path : String) : Except GrpcCode FileContentResponse :=
  match validatePath baseDir fsEval path with
  | .error e => .error e
  | .ok validPath =>
    match mapLookup fs validPath with
    | none => .ok { success := false, error := "File does not exist" }
    | some content =>
      let lineCount : Int :=
        if content = [] then 0 else (content.count '\n' : Int) + 1
      .ok { success := true, content := content, encoding := "utf-8"
            lineCount := lineCount, size := (charsUtf8Size content : Int) }

/-- proto WriteFileContentRequest (the fields the editor reads). -/
structure WriteFileContentRequest : Type where
  path : String := ""
  fileHandle : String := ""
  content : List Char := []
  truncate : Bool := false
  createBackup : Bool := false

/-- WriteFileContent: resolve the target through the session table (with
a read-only check, marking the session dirty) or through validatePath;
optionally back up an existing target to path + ".backup." + timestamp;
open with create+write flags (truncating only when requested) and write
the content at offset zero. Without truncation, previous bytes beyond the
written content survive. -/
def WriteFileContent (baseDir : String) (fsEval : String → EvalResult)
    (now : Int) (fs : Fs) (st : FileEditor) (req : WriteFileContentRequest) :
    Except GrpcCode OperationResponse × Fs × FileEditor :=
  let write : String → FileEditor →
      Except GrpcCode OperationResponse × Fs × FileEditor :=
    fun validPath st1 =>
      let backupPath := validPath ++ ".backup." ++ toString now
      let fs1 :=
        if req.createBackup then
          match mapLookup fs validPath with
          | some oldContent => mapInsert fs backupPath oldContent
          | none => fs
        else fs
      let oldContent := (mapLookup fs1 validPath).getD []
      let newFile :=
        if req.truncate then req.content
        else req.content ++ oldContent.drop req.content.length
      (.ok { success := true
             message := "File content written successfully (" ++
               toString (charsUtf8Size req.content) ++ " bytes)" },
       mapInsert fs1 validPath newFile, st1)
  if req.fileHandle ≠ "" then
    match mapLookup st.sessions req.fileHandle with
    | none => (.ok { success := false, error := "Invalid file handle" }, fs, st)
    | some session =>
      if session.mode = .READ_ONLY then
        (.ok { success := false, error := "File opened in read-only mode" },
         fs, st)
      else
        write session.path
          { st with sessions := (mapAdjust st.sessions req.fileHandle
              (fun s => { s with hasChanges := true, lastAccess := now })) }
  else
    match validatePath baseDir fsEval req.path with
    | .error e => (.error e, fs, st)
    | .ok validPath => write validPath st

/-- proto LineUpdate. -/
structure LineUpdate : Type where
  lineNumber : Int
  newContent : List Char
  operation : LineOperation
deriving DecidableEq, Repr

/-- Insert an element at position n (Go append-splice of slices). -/
def listInsertAt {α : Type} (n : Nat) (a : α) (l : List α) : List α :=
  l.take n ++ a :: l.drop n

/-- One iteration of the UpdateFileLines switch: apply a single update to
the current line sequence, leaving it unchanged when the (1-based) line
number is out of range for the operation. -/
def applyUpdate (lines : List (List Char)) (u : LineUpdate) : List (List Char) :=
  let lineIdx : Int := u.lineNumber - 1
  match u.operation with
  | .REPLACE =>
    if 0 ≤ lineIdx ∧ lineIdx < (lines.length : Int) then
      lines.set lineIdx.toNat u.newContent
    else lines
  | .INSERT_BEFORE =>
    if 0 ≤ lineIdx ∧ lineIdx ≤ (lines.length : Int) then
      listInsertAt lineIdx.toNat u.newContent lines
    else lines
  | .INSERT_AFTER =>
    if 0 ≤ lineIdx ∧ lineIdx < (lines.length : Int) then
      listInsertAt (lineIdx.toNat + 1) u.newContent lines
    else lines
  | .DELETE =>
    if 0 ≤ lineIdx ∧ lineIdx < (lines.length : Int) then
      lines.eraseIdx lineIdx.toNat
    else lines

/-- The UpdateFileLines loop: apply the batch left to right, each update
seeing the sequence as left by all earlier updates. -/
def applyUpdates (lines : List (List Char)) (updates : List LineUpdate) :
    List (List Char) :=
  updates.foldl applyUpdate lines

/-- Is the update in range for its operation against the current
sequence (the guard of the corresponding switch case)? -/
def updateInRange (lines : List (List Char)) (u : LineUpdate) : Bool :=
  let lineIdx : Int := u.lineNumber - 1
  match u.operation with
  | .INSERT_BEFORE => decide (0 ≤ lineIdx ∧ lineIdx ≤ (lines.length : Int))
  | _ => decide (0 ≤ lineIdx ∧ lineIdx < (lines.length : Int))

/-- proto UpdateFileLinesRequest (the fields the editor reads). -/
structure UpdateFileLinesRequest : Type where
  path : String := ""
  fileHandle : String := ""
  updates : List LineUpdate := []
  createBackup : Bool := false

/-- UpdateFileLines: resolve the target through the session table (with a
read-only check) or through validatePath; optionally back up (failing the
call when the source cannot be copied); read the whole file, split on
newlines, apply the batch in order, rejoin and rewrite the whole file;
finally mark a handle-addressed session dirty. -/
def UpdateFileLines (baseDir : String) (fsEval : String → EvalResult)
    (now : Int) (fs : Fs) (st : FileEditor) (req : UpdateFileLinesRequest) :
    Except GrpcCode OperationResponse × Fs × FileEditor :=
  let run : String →
      Except GrpcCode OperationResponse × Fs × FileEditor :=
    fun validPath =>
      let backupPath := validPath ++ ".backup." ++ toString now
      match (if req.createBackup then
               match mapLookup fs validPath with
               | some oldContent => some (mapInsert fs backupPath oldContent)
               | none => none
             else some fs) with
      | none =>
        (.ok { success := false, error := "Failed to create backup" }, fs, st)
      | some fs1 =>
        match mapLookup fs1 validPath with
        | none => (.ok { success := false, error := "Failed to read file" }, fs1, st)
        | some content =>
          let lines := splitOnChar '\n' content
          let newLines := applyUpdates lines req.updates
          let newContent := joinWithChar '\n' newLines
          let fs2 := mapInsert fs1 validPath newContent
          let st2 :=
            if req.fileHandle ≠ "" then
              { st with sessions := (mapAdjust st.sessions req.fileHandle
                  (fun s => { s with hasChanges := true, lastAccess := now })) }
            else st
          (.ok { success := true
                 message := "Successfully applied " ++
                   toString req.updates.length ++ " line updates" },
           fs2, st2)
  if req.fileHandle ≠ "" then
    match mapLookup st.sessions req.fileHandle with
    | none => (.ok { success := false, error := "Invalid file handle" }, fs, st)
    | some session =>
      if session.mode = .READ_ONLY then
        (.ok { success := false, error := "File opened in read-only mode" },
         fs, st)
      else run session.path
  else
    match validatePath baseDir fsEval req.path with
    | .error e => (.error e, fs, st)
    | .ok validPath => run validPath

/-! ## GetFileLines (bufio.Scanner with ScanLines) -/

/-- bufio ScanLines drops one trailing carriage return from each token. -/
def dropTrailingCR (l : List Char) : List Char :=
  if l.getLast? = some '\x0d' then l.dropLast else l

/-- The token sequence produced by bufio.Scanner over the file content:
lines split on newline, without terminators, a final piece only when
non-empty, and trailing carriage returns stripped. -/
def scanTokens (content : List Char) : List (List Char) :=
  if content = [] then []
  else
    let parts := splitOnChar '\n' content
    let parts := if parts.getLast? = some [] then parts.dropLast else parts
    parts.map dropTrailingCR

/-- proto FileLine (LineNumber stays zero when not requested). -/
structure FileLine : Type where
  content : List Char
  length : Int
  lineNumber : Int := 0
deriving DecidableEq, Repr

/-- proto FileLinesResponse (the fields the editor sets). -/
structure FileLinesResponse : Type where
  success : Bool
  error : String := ""
  lines : List FileLine := []
  totalLines : Int := 0
deriving DecidableEq, Repr

/-- The GetFileLines scan loop: totalLines counts every scanned token,
including the one whose line number triggers the early break; lineNumber
advances on skipped and collected lines but not across the break. -/
def scanLoop (startLine endLine : Int) (includeLineNumbers : Bool) :
    List (List Char) → Int → Int → List FileLine × Int
  | [], _, totalLines => ([], totalLines)
  | tok :: rest, lineNumber, totalLines =>
    let totalLines := totalLines + 1
    if startLine > 0 ∧ lineNumber < startLine then
      scanLoop startLine endLine includeLineNumbers rest (lineNumber + 1) totalLines
    else if endLine > 0 ∧ lineNumber > endLine then
      ([], totalLines)
    else
      let fileLine : FileLine :=
        { content := tok, length := (charsUtf8Size tok : Int)
          lineNumber := if includeLineNumbers then lineNumber else 0 }
      let r := scanLoop startLine endLine includeLineNumbers rest
        (lineNumber + 1) totalLines
      (fileLine :: r.1, r.2)

/-- proto GetFileLinesRequest (the fields the editor reads). -/
structure GetFileLinesRequest : Type where
  path : String := ""
  fileHandle : String := ""
  startLine : Int := 0
  endLine : Int := 0
  includeLineNumbers : Bool := false

/-- GetFileLines: resolve the target through the session table (no mode
check) or through validatePath, scan the file line by line and collect the
requested 1-based range; start or end of zero means unbounded on that
side. -/
def GetFileLines (baseDir : String) (fsEval : String → EvalResult)
    (fs : Fs) (st : FileEditor) (req : GetFileLinesRequest) :
    Except GrpcCode FileLinesResponse :=
  let run : String → Except GrpcCode FileLinesResponse := fun validPath =>
    match mapLookup fs validPath with
    | none => .ok { success := false, error := "File does not exist" }
    | some content =>
      let r := scanLoop req.startLine req.endLine req.includeLineNumbers
        (scanTokens content) 1 0
      .ok { success := true, lines := r.1, totalLines := r.2 }
  if req.fileHandle ≠ "" then
    match mapLookup st.sessions req.fileHandle with
    | none => .ok { success := false, error := "Invalid file handle" }
    | some session => run session.path
  else
    match validatePath baseDir fsEval req.path with
    | .error e => .error e
    | .ok validPath => run validPath

/-! ## Further association-list lemmas -/

theorem mapLookup_filter_of_pos {α : Type} (p : String × α → Bool)
    (m : List (String × α)) (k : String) (v : α)
    (h : mapLookup m k = some v) (hp : p (k, v) = true) :
    mapLookup (m.filter p) k = some v := by
  induction m with
  | nil => simp [mapLookup] at h
  | cons e rest ih =>
    obtain ⟨k', w⟩ := e
    by_cases hk : k' = k
    · subst hk
      simp [mapLookup] at h
      subst h
      simp [List.filter, hp, mapLookup]
    · simp [mapLookup, hk] at h
      by_cases hw : p (k', w) = true
      · simp [List.filter, hw, mapLookup, hk, ih h]
      · simp at hw
        simp [List.filter, hw, ih h]

theorem mapErase_idem {α : Type} (m : List (String × α)) (k : String) :
    mapErase (mapErase m k) k = mapErase m k := by
  induction m with
  | nil => rfl
  | cons e rest ih =>
    obtain ⟨k', v⟩ := e
    by_cases hk : k' = k <;> simp [mapErase, hk, ih]

theorem mapErase_filter_key {α : Type} (m : List (String × α)) (k : String) :
    (mapErase m k).filter (fun e => decide (e.1 = k)) = [] := by
  induction m with
  | nil => rfl
  | cons e rest ih =>
    obtain ⟨k', v⟩ := e
    by_cases hk : k' = k <;> simp [mapErase, hk, List.filter, ih]

theorem mapInsert_filter_key {α : Type} (m : List (String × α)) (k : String) (v : α) :
    (mapInsert m k v).filter (fun e => decide (e.1 = k)) = [(k, v)] := by
  simp [mapInsert, List.filter, mapErase_filter_key]

theorem mapInsert_mapErase_self {α : Type} (m : List (String × α)) (k : String) (v : α) :
    mapInsert (mapErase m k) k v = mapInsert m k v := by
  simp [mapInsert, mapErase_idem]

theorem mapErase_sublist {α : Type} (m : List (String × α)) (k : String) :
    (mapErase m k).Sublist m := by
  induction m with
  | nil => simp [mapErase]
  | cons e rest ih =>
    obtain ⟨k', v⟩ := e
    by_cases hk : k' = k
    · simpa [mapErase, hk] using ih.cons (k', v)
    · simpa [mapErase, hk] using ih.cons₂ (k', v)

theorem not_mem_mapErase_keys {α : Type} (m : List (String × α)) (k : String) :
    k ∉ (mapErase m k).map Prod.fst := by
  induction m with
  | nil => simp [mapErase]
  | cons e rest ih =>
    obtain ⟨k', v⟩ := e
    by_cases hk : k' = k <;> simp [mapErase, hk, ih]
    exact fun hc => absurd hc.symm hk

/-- Unique table keys survive a Go-map-style insert (single-slot-per-key
semantics). -/
theorem mapInsert_keys_nodup {α : Type} (m : List (String × α)) (k : String)
    (v : α) (h : (m.map Prod.fst).Nodup) :
    ((mapInsert m k v).map Prod.fst).Nodup := by
  have hsub : ((mapErase m k).map Prod.fst).Sublist (m.map Prod.fst) :=
    (mapErase_sublist m k).map Prod.fst
  simp only [mapInsert, List.map_cons]
  exact List.nodup_cons.mpr ⟨not_mem_mapErase_keys m k, h.sublist hsub⟩

/-! ## The scan-loop line-count formula -/

/-- Closed form for the totalLines counter of the GetFileLines loop: with
a positive endLine the loop scans up to the cutoff line
max(startLine, endLine + 1) (endLine + 1 when startLine is not positive),
counting the cutoff line itself before breaking. -/
theorem scanLoop_totalLines (s e : Int) (inc : Bool) (he : e > 0) :
    ∀ (toks : List (List Char)) (ln t : Int),
      (scanLoop s e inc toks ln t).2 =
        t + min ((toks.length : Int))
          (max ((if s > 0 then max s (e + 1) else e + 1) - ln + 1) 1) := by
  intro toks
  induction toks with
  | nil =>
    intro ln t
    by_cases hs : s > 0 <;> simp only [scanLoop, if_pos, if_neg, hs,
      List.length_nil, Int.ofNat_zero] <;> omega
  | cons tok rest ih =>
    intro ln t
    simp only [scanLoop]
    by_cases h1 : s > 0 ∧ ln < s
    · rw [if_pos h1]
      rw [ih]
      have hs : s > 0 := h1.1
      simp only [if_pos hs, List.length_cons]
      push_cast
      omega
    · rw [if_neg h1]
      by_cases h2 : e > 0 ∧ ln > e
      · rw [if_pos h2]
        by_cases hs : s > 0 <;> simp only [if_pos, if_neg, hs, List.length_cons] <;>
          push_cast <;> omega
      · rw [if_neg h2]
        simp only []
        rw [ih]
        by_cases hs : s > 0 <;> simp only [if_pos, if_neg, hs, List.length_cons] <;>
          push_cast <;> omega

/-! ## Concrete scenario states used by the claim theorems

Root directory /data; the OS tree contains the root, the files a.txt and
f.txt under it, and (for the escape scenario) a sibling directory
/database outside the root; no symlinks, so EvalSymlinks is the identity
on existing paths. -/

/-- Filesystem tree with only the root and two files under it. -/
def evData : String → EvalResult := fun p =>
  if p = "/data" ∨ p = "/data/a.txt" ∨ p = "/data/f.txt" then .ok p
  else .notExist

/-- Filesystem tree that also has a sibling directory /database whose
name extends the root's name. -/
def evSibling : String → EvalResult := fun p =>
  if p = "/database" then .ok "/database"
  else if p = "/data" then .ok "/data"
  else .notExist

/-- Filesystem tree where /etc/passwd exists outside the root. -/
def evEtc : String → EvalResult := fun p =>
  if p = "/etc/passwd" then .ok "/etc/passwd"
  else if p = "/data" then .ok "/data"
  else .notExist

/-- Editor state with no sessions and no locks. -/
def emptyEditor : FileEditor := { sessions := [], locks := [] }

/-- A five-line file under the root. -/
def fsFive : Fs := [("/data/f.txt", ("l1\nl2\nl3\nl4\nl5").data)]

/-- Session holding an exclusive lock on a.txt (as left by OpenFile with
exclusiveLock, which stores the lock under the path validated from the
raw request path). -/
def sessLocked : FileSession :=
  { handle := "h1", path := "/data/a.txt", mode := .READ_WRITE
    lockID := "lock_aa", lastAccess := 0, hasChanges := false }

/-- The exclusive lock owned by sessLocked, expiring at time 300. -/
def lockAA : FileLock :=
  { lockID := "lock_aa", path := "/data/a.txt", type := .EXCLUSIVE
    expiresAt := 300 }

/-- Editor state after OpenFile acquired an exclusive lock for session
h1. -/
def stLocked : FileEditor :=
  { sessions := [("h1", sessLocked)], locks := [("/data/a.txt", lockAA)] }

/-- A read-only session on f.txt. -/
def sessRO : FileSession :=
  { handle := "h2", path := "/data/f.txt", mode := .READ_ONLY
    lockID := "", lastAccess := 0, hasChanges := false }

/-- Editor state with one read-only session. -/
def stRO : FileEditor := { sessions := [("h2", sessRO)], locks := [] }

/-- A shared lock on a.txt held by a first caller, expiring at 100. -/
def sharedLockA : FileLock :=
  { lockID := "lock_a", path := "/data/a.txt", type := .SHARED
    expiresAt := 100 }

/-- Editor state with the first caller's shared lock in the table. -/
def stShared : FileEditor :=
  { sessions := [], locks := [("/data/a.txt", sharedLockA)] }

/-- The batch from the spec scenario: replace line 2, then insert after
line 2. -/
def updFive : List LineUpdate :=
  [ { lineNumber := 2, newContent := "X".data, operation := .REPLACE },
    { lineNumber := 2, newContent := "Y".data, operation := .INSERT_AFTER } ]

/-- A batch whose first update is out of range on a two-line file, and
whose second update is in range. -/
def updOOR : List LineUpdate :=
  [ { lineNumber := 10, newContent := "Z".data, operation := .REPLACE },
    { lineNumber := 1, newContent := "A2".data, operation := .REPLACE } ]

/-- A two-line file under the root. -/
def fsTwo : Fs := [("/data/f.txt", ("a\nb").data)]

/-- A six-byte file under the root. -/
def fsSix : Fs := [("/data/f.txt", ("ABCDEF").data)]

/-! ## Claim theorems -/

/-- C1 counterexample: the raw path "../database" contains a dot-dot
segment and canonicalizes to /database, which lies outside the root
directory /data; yet validatePath accepts it and returns a usable path,
because the sandbox check is a plain string-prefix test and "/data" is a
string prefix of "/database". So the claim that every such path is
rejected with PermissionDenied is false on the code. -/
theorem validatePath_sibling_escape_counterexample :
    (splitOnChar '/' (("../database").data)).contains ['.', '.'] = true ∧
    validatePath "/data" evSibling "../database" = .ok "/database" ∧
    insideRoot "/data" "/database" = false := by
  decide

/-- C1 (amended): validatePath fails with PermissionDenied exactly when
the canonical form of the joined path (or, for a not-yet-existing path,
of its parent directory) does not have the root as a string prefix, and
returns the joined path whenever that string prefix is present. Paths
canonicalizing inside the root always carry the prefix and so succeed,
but a path outside the root whose canonical form merely extends the
root's name as a string (such as /database for root /data) is accepted
as well. -/
theorem validatePath_string_prefix_dichotomy
    (baseDir path real : String) (fsEval : String → EvalResult)
    (h : checkedCanonical fsEval (joinPath baseDir path) = some real) :
    validatePath baseDir fsEval path =
      if strStartsWith real baseDir then .ok (joinPath baseDir path)
      else .error .permissionDenied := by
  unfold validatePath checkedCanonical at *
  cases hf : fsEval (joinPath baseDir path) with
  | ok r => rw [hf] at h; simp at h; subst h; simp [hf]
  | notExist =>
    rw [hf] at h
    cases hp : fsEval (dirPath (joinPath baseDir path)) with
    | ok rp => rw [hp] at h; simp at h; subst h; simp [hf, hp]
    | notExist => rw [hp] at h; simp at h
    | otherErr => rw [hp] at h; simp at h
  | otherErr => rw [hf] at h; simp at h

/-- C1 witness: a traversal path canonicalizing to /etc/passwd lacks the
string prefix and is denied. -/
theorem validatePath_string_prefix_dichotomy_witness :
    validatePath "/data" evEtc "../../etc/passwd" = .error .permissionDenied := by
  have h := validatePath_string_prefix_dichotomy "/data" "../../etc/passwd"
    "/etc/passwd" evEtc (by decide)
  rw [h]
  decide

/-- C2: closing a session that owns a lock reports success and removes
the session, but the lock entry survives in the table: CloseFile hands
the session's already-joined absolute path back to UnlockFile, whose
validatePath joins it with the root a second time ("/data/a.txt" becomes
"/data/data/a.txt") and fails, and CloseFile ignores that failure. A
subsequent exclusive LockFile on the same path therefore still fails
AlreadyLocked before the stale lock expires (time 10 < 300) and only
succeeds after expiry (time 301), contradicting the claim that CloseFile
releases the session's lock. -/
theorem CloseFile_fails_to_release_lock :
    (CloseFile "/data" evData stLocked "h1" false).1 =
      .ok { success := true, message := "File closed successfully" } ∧
    mapLookup (CloseFile "/data" evData stLocked "h1" false).2.locks
      "/data/a.txt" = some lockAA ∧
    mapLookup (CloseFile "/data" evData stLocked "h1" false).2.sessions
      "h1" = none ∧
    (LockFile "/data" evData 10 "lock_bb"
      (CloseFile "/data" evData stLocked "h1" false).2 "a.txt"
      .EXCLUSIVE 60).1 =
      .ok { success := false, error := "File is already locked" } ∧
    (LockFile "/data" evData 301 "lock_cc"
      (CloseFile "/data" evData stLocked "h1" false).2 "a.txt"
      .EXCLUSIVE 60).1 =
      .ok { success := true, lockId := "lock_cc", expiresAt := 361 } := by
  decide

/-- C3: the lock table keeps a single slot per path. A Shared request
accepted against an unexpired Shared lock stores a fresh lock that
replaces the old entry: afterwards the path maps to the new lock only,
the filtered table holds exactly one entry for the path, unique table
keys are preserved, and an Unlock presenting the original holder's lock
id fails as an invalid lock ID. -/
theorem shared_lock_overwrites_single_slot
    (baseDir path vp : String) (fsEval : String → EvalResult)
    (st : FileEditor) (now t : Int) (fresh : String) (old : FileLock)
    (hval : validatePath baseDir fsEval path = .ok vp)
    (hold : mapLookup st.locks vp = some old)
    (hunexp : now < old.expiresAt)
    (hshared : old.type = .SHARED)
    (hfresh : fresh ≠ old.lockID) :
    (LockFile baseDir fsEval now fresh st path .SHARED t).1 =
      .ok { success := true, lockId := fresh
            expiresAt := now + (if t = 0 then 300 else t) } ∧
    mapLookup (LockFile baseDir fsEval now fresh st path .SHARED t).2.locks vp =
      some { lockID := fresh, path := vp, type := .SHARED
             expiresAt := now + (if t = 0 then 300 else t) } ∧
    (LockFile baseDir fsEval now fresh st path .SHARED t).2.locks.filter
        (fun entry => decide (entry.1 = vp)) =
      [(vp, { lockID := fresh, path := vp, type := .SHARED
              expiresAt := now + (if t = 0 then 300 else t) })] ∧
    ((st.locks.map Prod.fst).Nodup →
      ((LockFile baseDir fsEval now fresh st path .SHARED t).2.locks.map
        Prod.fst).Nodup) ∧
    (UnlockFile baseDir fsEval
        (LockFile baseDir fsEval now fresh st path .SHARED t).2 path
        old.lockID).1 =
      .ok { success := false, error := "Invalid lock ID" } := by
  have hclean : mapLookup (cleanupExpiredLocks now st.locks) vp = some old := by
    apply mapLookup_filter_of_pos _ _ _ _ hold
    simp [decide_eq_true_eq]
    omega
  have hr : LockFile baseDir fsEval now fresh st path .SHARED t =
      (.ok { success := true, lockId := fresh
             expiresAt := now + (if t = 0 then 300 else t) },
       { st with locks := (mapInsert (cleanupExpiredLocks now st.locks) vp
           { lockID := fresh, path := vp, type := .SHARED
             expiresAt := now + (if t = 0 then 300 else t) }) }) := by
    unfold LockFile
    rw [hval]
    simp only [hclean]
    rw [if_pos hunexp, if_neg (by simp [hshared])]
  refine ⟨by rw [hr], ?_, ?_, ?_, ?_⟩
  · rw [hr]
    simp [mapLookup_mapInsert]
  · rw [hr]
    simp [mapInsert_filter_key]
  · intro hnd
    rw [hr]
    apply mapInsert_keys_nodup
    have hsub : (cleanupExpiredLocks now st.locks).Sublist st.locks := by
      unfold cleanupExpiredLocks
      exact List.filter_sublist _
    exact hnd.sublist (hsub.map Prod.fst)
  · rw [hr]
    unfold UnlockFile
    rw [hval]
    simp [mapLookup_mapInsert, hfresh]

/-- C3 witness: a second caller's Shared lock on a.txt at time 0 against
an unexpired Shared lock replaces it, and unlocking with the first lock
id fails. -/
theorem shared_lock_overwrites_single_slot_witness :
    (LockFile "/data" evData 0 "lock_b" stShared "a.txt" .SHARED 60).1 =
      .ok { success := true, lockId := "lock_b", expiresAt := 60 } ∧
    (UnlockFile "/data" evData
        (LockFile "/data" evData 0 "lock_b" stShared "a.txt" .SHARED 60).2
        "a.txt" "lock_a").1 =
      .ok { success := false, error := "Invalid lock ID" } := by
  have h := shared_lock_overwrites_single_slot "/data" "a.txt" "/data/a.txt"
    evData stShared 0 60 "lock_b" sharedLockA (by decide) (by decide)
    (by decide) (by decide) (by decide)
  exact ⟨h.1, h.2.2.2.2⟩

/-- C4: LockFile first sweeps every expired lock, then fails
AlreadyLocked precisely when the swept table still holds an unexpired
lock on the validated path and the request or the holder is Exclusive;
otherwise it stores a fresh lock expiring at now + timeout, with 300
seconds substituted for an unspecified (zero) timeout. Consequently (the
closed conjuncts) an exclusive lock at time 0 with timeout 60 succeeds
expiring at 60, an immediate exclusive retry fails AlreadyLocked, a
retry at time 61 (after expiry) succeeds with a fresh lock id expiring
at 121, and a request with timeout 0 expires at 300. -/
theorem LockFile_sweep_conflict_expiry
    (baseDir path vp : String) (fsEval : String → EvalResult)
    (st : FileEditor) (now t : Int) (fresh : String) (lt : LockType)
    (hval : validatePath baseDir fsEval path = .ok vp) :
    ((∃ l, mapLookup (cleanupExpiredLocks now st.locks) vp = some l ∧
        now < l.expiresAt ∧ (lt = .EXCLUSIVE ∨ l.type = .EXCLUSIVE)) →
      LockFile baseDir fsEval now fresh st path lt t =
        (.ok { success := false, error := "File is already locked" },
         { st with locks := cleanupExpiredLocks now st.locks })) ∧
    ((¬ ∃ l, mapLookup (cleanupExpiredLocks now st.locks) vp = some l ∧
        now < l.expiresAt ∧ (lt = .EXCLUSIVE ∨ l.type = .EXCLUSIVE)) →
      LockFile baseDir fsEval now fresh st path lt t =
        (.ok { success := true, lockId := fresh
               expiresAt := now + (if t = 0 then 300 else t) },
         { st with locks := (mapInsert (cleanupExpiredLocks now st.locks) vp
             { lockID := fresh, path := vp, type := lt
               expiresAt := now + (if t = 0 then 300 else t) }) })) ∧
    (LockFile "/data" evData 0 "l1" emptyEditor "a.txt" .EXCLUSIVE 60).1 =
      .ok { success := true, lockId := "l1", expiresAt := 60 } ∧
    (LockFile "/data" evData 0 "l2"
      (LockFile "/data" evData 0 "l1" emptyEditor "a.txt" .EXCLUSIVE 60).2
      "a.txt" .EXCLUSIVE 60).1 =
      .ok { success := false, error := "File is already locked" } ∧
    (LockFile "/data" evData 61 "l3"
      (LockFile "/data" evData 0 "l1" emptyEditor "a.txt" .EXCLUSIVE 60).2
      "a.txt" .EXCLUSIVE 60).1 =
      .ok { success := true, lockId := "l3", expiresAt := 121 } ∧
    (LockFile "/data" evData 0 "l4" emptyEditor "a.txt" .EXCLUSIVE 0).1 =
      .ok { success := true, lockId := "l4", expiresAt := 300 } := by
  refine ⟨?_, ?_, by decide, by decide, by decide, by decide⟩
  · rintro ⟨l, hl, hun, hty⟩
    unfold LockFile
    rw [hval]
    simp only [hl]
    rw [if_pos hun, if_pos hty]
  · intro hno
    push_neg at hno
    unfold LockFile
    rw [hval]
    cases hd : mapLookup (cleanupExpiredLocks now st.locks) vp with
    | none => simp only [hd]
    | some l =>
      simp only [hd]
      have hli := hno l hd
      by_cases hun : now < l.expiresAt
      · rw [if_pos hun, if_neg (not_or.mpr (hli hun))]
      · rw [if_neg hun]
        simp [mapInsert_mapErase_self]

/-- C4 witness: the conflict implication applied to a state holding an
unexpired exclusive lock on a.txt, and the no-conflict implication
applied to the empty table. -/
theorem LockFile_sweep_conflict_expiry_witness :
    (LockFile "/data" evData 5 "w1"
      { sessions := [], locks := [("/data/a.txt", lockAA)] }
      "a.txt" .EXCLUSIVE 60).1 =
      .ok { success := false, error := "File is already locked" } ∧
    (LockFile "/data" evData 5 "w2" emptyEditor "a.txt" .EXCLUSIVE 60).1 =
      .ok { success := true, lockId := "w2", expiresAt := 65 } := by
  constructor
  · have h := (LockFile_sweep_conflict_expiry "/data" "a.txt" "/data/a.txt"
      evData { sessions := [], locks := [("/data/a.txt", lockAA)] }
      5 60 "w1" .EXCLUSIVE (by decide)).1
      ⟨lockAA, by decide, by decide, Or.inl rfl⟩
    rw [h]
  · have h := (LockFile_sweep_conflict_expiry "/data" "a.txt" "/data/a.txt"
      evData emptyEditor 5 60 "w2" .EXCLUSIVE (by decide)).2.1
      (by rintro ⟨l, hl, -⟩
          simp [emptyEditor, cleanupExpiredLocks, mapLookup] at hl)
    rw [h]
    decide

/-- C5: UpdateFileLines applies the batch strictly in order, each update
against the sequence as already modified by the earlier ones (the fold
equation), and on the five-line file the spec batch Replace(2, X) then
InsertAfter(2, Y) produces line 2 = X and a new line 3 = Y; the rejoined
sequence is written back as one whole-file value. -/
theorem UpdateFileLines_sequential_batch :
    (∀ (lines : List (List Char)) (u : LineUpdate) (us : List LineUpdate),
      applyUpdates lines (u :: us) = applyUpdates (applyUpdate lines u) us) ∧
    applyUpdates (splitOnChar '\n' (("l1\nl2\nl3\nl4\nl5").data)) updFive =
      [("l1").data, ("X").data, ("Y").data, ("l3").data, ("l4").data,
       ("l5").data] ∧
    (UpdateFileLines "/data" evData 0 fsFive emptyEditor
        { path := "f.txt", updates := updFive }).1 =
      .ok { success := true
            message := "Successfully applied 2 line updates" } ∧
    mapLookup (UpdateFileLines "/data" evData 0 fsFive emptyEditor
        { path := "f.txt", updates := updFive }).2.1 "/data/f.txt" =
      some (("l1\nX\nY\nl3\nl4\nl5").data) ∧
    (UpdateFileLines "/data" evData 0 fsFive emptyEditor
        { path := "f.txt", updates := updFive }).2.1 =
      mapInsert fsFive "/data/f.txt"
        (joinWithChar '\n'
          (applyUpdates (splitOnChar '\n' (("l1\nl2\nl3\nl4\nl5").data))
            updFive)) := by
  refine ⟨fun lines u us => rfl, by decide, by decide, by decide, by decide⟩

/-- C5 witness: the fold equation of the batch application at a concrete
one-line sequence. -/
theorem UpdateFileLines_sequential_batch_witness :
    applyUpdates [("a").data]
      [{ lineNumber := 1, newContent := ("b").data, operation := .REPLACE }] =
      applyUpdates (applyUpdate [("a").data]
        { lineNumber := 1, newContent := ("b").data, operation := .REPLACE }) [] := by
  exact UpdateFileLines_sequential_batch.1 [("a").data]
    { lineNumber := 1, newContent := ("b").data, operation := .REPLACE } []

/-- C6: a mutating call through a handle whose session was opened
read-only fails with the read-only rejection and leaves the filesystem,
including any would-be backup, and the editor state untouched, for both
WriteFileContent and UpdateFileLines. -/
theorem readonly_session_rejects_mutations
    (baseDir : String) (fsEval : String → EvalResult) (now : Int)
    (fs : Fs) (st : FileEditor) (handle : String) (session : FileSession)
    (req : WriteFileContentRequest) (req2 : UpdateFileLinesRequest)
    (hh : handle ≠ "")
    (hs : mapLookup st.sessions handle = some session)
    (hm : session.mode = .READ_ONLY)
    (hrq : req.fileHandle = handle) (hrq2 : req2.fileHandle = handle) :
    WriteFileContent baseDir fsEval now fs st req =
      (.ok { success := false, error := "File opened in read-only mode" },
       fs, st) ∧
    UpdateFileLines baseDir fsEval now fs st req2 =
      (.ok { success := false, error := "File opened in read-only mode" },
       fs, st) := by
  constructor
  · unfold WriteFileContent
    rw [hrq, if_pos hh, hs]
    simp [hm]
  · unfold UpdateFileLines
    rw [hrq2, if_pos hh, hs]
    simp [hm]

/-- C6 witness: a write and a batch update through the read-only session
h2 are rejected and change nothing. -/
theorem readonly_session_rejects_mutations_witness :
    WriteFileContent "/data" evData 0 fsFive stRO
      { fileHandle := "h2", content := ("zz").data, truncate := true } =
      (.ok { success := false, error := "File opened in read-only mode" },
       fsFive, stRO) ∧
    UpdateFileLines "/data" evData 0 fsFive stRO
      { fileHandle := "h2", updates := updFive, createBackup := true } =
      (.ok { success := false, error := "File opened in read-only mode" },
       fsFive, stRO) := by
  exact readonly_session_rejects_mutations "/data" evData 0 fsFive stRO
    "h2" sessRO
    { fileHandle := "h2", content := ("zz").data, truncate := true }
    { fileHandle := "h2", updates := updFive, createBackup := true }
    (by decide) (by decide) (by decide) rfl rfl

/-- C7: an update whose line number is out of range for its operation at
the moment it is applied leaves the sequence unchanged and the rest of
the batch still runs; a whole UpdateFileLines call containing such an
update still succeeds, reports no error, and applies the in-range
updates (the closed conjuncts: Replace(10) on a two-line file is
ignored while the following Replace(1) lands). -/
theorem out_of_range_update_skipped
    (lines : List (List Char)) (u : LineUpdate) (us : List LineUpdate)
    (h : updateInRange lines u = false) :
    applyUpdate lines u = lines ∧
    applyUpdates lines (u :: us) = applyUpdates lines us ∧
    (UpdateFileLines "/data" evData 0 fsTwo emptyEditor
        { path := "f.txt", updates := updOOR }).1 =
      .ok { success := true
            message := "Successfully applied 2 line updates" } ∧
    mapLookup (UpdateFileLines "/data" evData 0 fsTwo emptyEditor
        { path := "f.txt", updates := updOOR }).2.1 "/data/f.txt" =
      some (("A2\nb").data) := by
  have ha : applyUpdate lines u = lines := by
    unfold updateInRange at h
    unfold applyUpdate
    cases hop : u.operation <;> rw [hop] at h <;>
      simp only [decide_eq_false_iff_not] at h <;> simp [h] <;>
      (intro h1 h2; exact absurd ⟨by omega, by omega⟩ h)
  exact ⟨ha, by simp [applyUpdates, List.foldl, ha], by decide, by decide⟩

/-- C7 witness: the out-of-range Replace(10) on the two-line file is a
no-op for the line sequence. -/
theorem out_of_range_update_skipped_witness :
    applyUpdate (splitOnChar (Char.ofNat 10) (("a\nb").data))
      { lineNumber := 10, newContent := ("Z").data, operation := .REPLACE } =
      splitOnChar (Char.ofNat 10) (("a\nb").data) := by
  exact (out_of_range_update_skipped (splitOnChar (Char.ofNat 10) (("a\nb").data))
    { lineNumber := 10, newContent := ("Z").data, operation := .REPLACE }
    [] (by decide)).1

/-- C8 counterexample: WriteFileContent with truncate = false over the
six-byte file ABCDEF succeeds writing xy, but ReadFileContent then
returns xyCDEF (the old tail survives the offset-zero write), which is
not byte-identical to the written content, so the unconditional
write-then-read round-trip claim is false on the code. -/
theorem write_without_truncate_counterexample :
    (WriteFileContent "/data" evData 0 fsSix emptyEditor
        { path := "f.txt", content := ("xy").data }).1 =
      .ok { success := true
            message := "File content written successfully (2 bytes)" } ∧
    ReadFileContent "/data" evData
        (WriteFileContent "/data" evData 0 fsSix emptyEditor
          { path := "f.txt", content := ("xy").data }).2.1 "f.txt" =
      .ok { success := true, content := ("xyCDEF").data, encoding := "utf-8"
            lineCount := 1, size := 6 } ∧
    ("xyCDEF").data ≠ ("xy").data := by
  decide

/-- C8 (amended): with truncate = true (in particular whenever the
target does not already hold longer content), a successful
WriteFileContent followed by ReadFileContent on the same path returns
content byte-identical to what was written, with size equal to its byte
length (createBackup immaterial). -/
theorem write_truncate_read_roundtrip
    (baseDir path vp : String) (fsEval : String → EvalResult) (now : Int)
    (fs : Fs) (st : FileEditor) (content : List Char) (b : Bool)
    (hval : validatePath baseDir fsEval path = .ok vp) :
    (WriteFileContent baseDir fsEval now fs st
        { path := path, content := content, truncate := true
          createBackup := b }).1 =
      .ok { success := true
            message := "File content written successfully (" ++
              toString (charsUtf8Size content) ++ " bytes)" } ∧
    ReadFileContent baseDir fsEval
        (WriteFileContent baseDir fsEval now fs st
          { path := path, content := content, truncate := true
            createBackup := b }).2.1
        path =
      .ok { success := true, content := content, encoding := "utf-8"
            lineCount := if content = [] then 0 else (content.count (Char.ofNat 10) : Int) + 1
            size := (charsUtf8Size content : Int) } := by
  have hw : (WriteFileContent baseDir fsEval now fs st
      { path := path, content := content, truncate := true, createBackup := b }) =
      (.ok { success := true
             message := "File content written successfully (" ++
               toString (charsUtf8Size content) ++ " bytes)" },
       mapInsert (if b then
           match mapLookup fs vp with
           | some oldContent => mapInsert fs (vp ++ ".backup." ++ toString now) oldContent
           | none => fs
         else fs) vp content, st) := by
    unfold WriteFileContent
    simp only [ne_eq, not_true_eq_false, if_false, reduceIte]
    rw [hval]
  refine ⟨by rw [hw], ?_⟩
  rw [hw]
  unfold ReadFileContent
  rw [hval]
  simp [mapLookup_mapInsert]

/-- C8 witness: writing a three-line file with truncation and reading it
back returns the same bytes with size 5 and line count 3. -/
theorem write_truncate_read_roundtrip_witness :
    ReadFileContent "/data" evData
        (WriteFileContent "/data" evData 0 fsSix emptyEditor
          { path := "f.txt", content := ("a\nb\nc").data
            truncate := true }).2.1 "f.txt" =
      .ok { success := true, content := ("a\nb\nc").data, encoding := "utf-8"
            lineCount := 3, size := 5 } := by
  have h := (write_truncate_read_roundtrip "/data" "f.txt" "/data/f.txt"
    evData 0 fsSix emptyEditor (("a\nb\nc").data) false (by decide)).2
  rw [h]
  decide

/-- C9 counterexample: on the five-line file, GetFileLines with
startLine = 4 and endLine = 2 (endLine positive, file longer than
endLine) returns totalLines = 4, not endLine + 1 = 3: the loop keeps
counting through the skip phase and only breaks at the first line that
is both at or past startLine and past endLine. -/
theorem getFileLines_totalLines_counterexample :
    (scanTokens (("l1\nl2\nl3\nl4\nl5").data)).length = 5 ∧
    GetFileLines "/data" evData fsFive emptyEditor
        { path := "f.txt", startLine := 4, endLine := 2 } =
      .ok { success := true, lines := [], totalLines := 4 } ∧
    (4 : Int) ≠ 2 + 1 := by
  decide

/-- C9 (amended): for endLine > 0 the returned totalLines is
min(number of scanned lines, cutoff) where the cutoff is
max(startLine, endLine + 1) when startLine > 0 and endLine + 1
otherwise; in particular, whenever additionally startLine is at most
endLine + 1 and the file has more than endLine lines, totalLines =
endLine + 1 (a sufficient condition only: a shorter file can also
report endLine + 1 when its line count happens to equal that value,
e.g. three lines with startLine = 4 and endLine = 2). -/
theorem getFileLines_totalLines_cutoff
    (baseDir path vp : String) (fsEval : String → EvalResult)
    (fs : Fs) (st : FileEditor) (content : List Char)
    (s e : Int) (inc : Bool)
    (hval : validatePath baseDir fsEval path = .ok vp)
    (hfile : mapLookup fs vp = some content)
    (he : e > 0) :
    GetFileLines baseDir fsEval fs st
        { path := path, startLine := s, endLine := e
          includeLineNumbers := inc } =
      .ok { success := true
            lines := (scanLoop s e inc (scanTokens content) 1 0).1
            totalLines := min ((scanTokens content).length : Int)
              (if s > 0 then max s (e + 1) else e + 1) } ∧
    (s ≤ e + 1 → e < ((scanTokens content).length : Int) →
      GetFileLines baseDir fsEval fs st
          { path := path, startLine := s, endLine := e
            includeLineNumbers := inc } =
        .ok { success := true
              lines := (scanLoop s e inc (scanTokens content) 1 0).1
              totalLines := e + 1 }) := by
  have ht : (scanLoop s e inc (scanTokens content) 1 0).2 =
      min ((scanTokens content).length : Int)
        (if s > 0 then max s (e + 1) else e + 1) := by
    rw [scanLoop_totalLines s e inc he]
    by_cases hs : s > 0 <;> simp [hs] <;> omega
  have hg : GetFileLines baseDir fsEval fs st
      { path := path, startLine := s, endLine := e
        includeLineNumbers := inc } =
      .ok { success := true
            lines := (scanLoop s e inc (scanTokens content) 1 0).1
            totalLines := (scanLoop s e inc (scanTokens content) 1 0).2 } := by
    unfold GetFileLines
    simp only [ne_eq, not_true_eq_false, if_false, reduceIte]
    rw [hval]
    simp only [hfile]
  constructor
  · rw [hg, ht]
  · intro h1 h2
    rw [hg, ht]
    have hmin : min ((scanTokens content).length : Int)
        (if s > 0 then max s (e + 1) else e + 1) = e + 1 := by
      by_cases hs : s > 0 <;> simp [hs] <;> omega
    rw [hmin]

/-- C9 witness: startLine = 2, endLine = 3 on the five-line file: the
cutoff formula gives totalLines = 4 (namely endLine + 1, since
startLine is at most endLine + 1 and the file has more than endLine
lines). -/
theorem getFileLines_totalLines_cutoff_witness :
    GetFileLines "/data" evData fsFive emptyEditor
        { path := "f.txt", startLine := 2, endLine := 3
          includeLineNumbers := true } =
      .ok { success := true
            lines := [ { content := ("l2").data, length := 2, lineNumber := 2 },
                       { content := ("l3").data, length := 2, lineNumber := 3 } ]
            totalLines := 4 } := by
  have h := (getFileLines_totalLines_cutoff "/data" "f.txt" "/data/f.txt"
    evData fsFive emptyEditor (("l1\nl2\nl3\nl4\nl5").data) 2 3 true
    (by decide) (by decide) (by decide)).2 (by decide) (by decide)
  rw [h]
  decide

/-- C10: UpdateFileLines with an empty batch and no backup on an
existing file succeeds and rewrites the file with byte-identical
content: splitting on newlines and rejoining is the identity, so the
filesystem is pointwise unchanged and the editor state untouched. -/
theorem empty_update_batch_identity
    (baseDir path vp : String) (fsEval : String → EvalResult) (now : Int)
    (fs : Fs) (st : FileEditor) (content : List Char)
    (hval : validatePath baseDir fsEval path = .ok vp)
    (hfile : mapLookup fs vp = some content) :
    (UpdateFileLines baseDir fsEval now fs st
        { path := path, updates := [], createBackup := false }).1 =
      .ok { success := true, message := "Successfully applied 0 line updates" } ∧
    (∀ q, mapLookup (UpdateFileLines baseDir fsEval now fs st
        { path := path, updates := [], createBackup := false }).2.1 q =
      mapLookup fs q) ∧
    (UpdateFileLines baseDir fsEval now fs st
        { path := path, updates := [], createBackup := false }).2.2 = st := by
  have hu : (UpdateFileLines baseDir fsEval now fs st
      { path := path, updates := [], createBackup := false }) =
      (.ok { success := true, message := "Successfully applied 0 line updates" },
       mapInsert fs vp content, st) := by
    unfold UpdateFileLines
    simp only [ne_eq, not_true_eq_false, if_false, reduceIte]
    rw [hval]
    simp only [Bool.false_eq_true, if_false, hfile]
    have hid : joinWithChar (Char.ofNat 10)
        (applyUpdates (splitOnChar (Char.ofNat 10) content) []) = content := by
      simp [applyUpdates, joinWithChar_splitOnChar]
    simp [hid]
    decide
  refine ⟨by rw [hu], ?_, by rw [hu]⟩
  intro q
  rw [hu]
  simp only [mapLookup_mapInsert]
  by_cases hq : vp = q
  · subst hq
    simp [hfile]
  · simp [hq]

/-- C10 witness: the empty batch on the five-line file succeeds and
leaves the stored content unchanged. -/
theorem empty_update_batch_identity_witness :
    (UpdateFileLines "/data" evData 0 fsFive emptyEditor
        { path := "f.txt", updates := [], createBackup := false }).1 =
      .ok { success := true, message := "Successfully applied 0 line updates" } ∧
    mapLookup (UpdateFileLines "/data" evData 0 fsFive emptyEditor
        { path := "f.txt", updates := [], createBackup := false }).2.1
      "/data/f.txt" = mapLookup fsFive "/data/f.txt" := by
  have h := empty_update_batch_identity "/data" "f.txt" "/data/f.txt"
    evData 0 fsFive emptyEditor (("l1\nl2\nl3\nl4\nl5").data)
    (by decide) (by decide)
  exact ⟨h.1, h.2.1 "/data/f.txt"⟩

end FsDaemon
